import Mathlib

/-!
Verification development for the incremental online clustering engine of the
nlp_rss repository (src/backend/clustering.py, with the table shapes of
src/backend/models/article_table.py and src/backend/models/event_table.py).

Modelling conventions:
* Database rows become Lean structures; SQL NULL columns become `Option`.
* Embedding vectors are stored in the database as JSON strings and parsed with
  `json.loads`; we model them already parsed, as `List ℚ` (exact rational
  arithmetic in place of IEEE floats, as is standard for a shallow embedding).
* The similarity function `util.cos_sim` comes from the external
  sentence_transformers library; it is modelled as an explicit parameter
  `sim : List ℚ → List ℚ → ℚ` of every function that uses it.  All theorems
  quantify over `sim`, so they cover in particular the cosine function.
  `cosSim1` below is the exact value of cosine similarity on one-dimensional
  vectors (where it is rational), used for concrete evaluations.
* `util.cos_sim` raises a shape error when the two vectors have different
  lengths; stateful functions therefore return `Except ClusterErr _`, and the
  length check in `findLoop` models that raise.  Python exceptions that
  propagate are modelled by `Except.error` propagation.
* The `db_session.commit()` points matter only for claim-level reasoning about
  durability; `assign_commits` below records the committed snapshots of the
  matched-article write sequence of `cluster_articles`.
-/

namespace Clustering

/-- Article row (src/backend/models/article_table.py).  `embedding` models the
`embedding_vector` JSON string already parsed; `none` is SQL NULL.  `source`,
`url` and `full_text` play no role in clustering and are omitted. -/
structure Article where
  articleId : Nat
  title : String
  publishedAt : Option Int
  embedding : Option (List ℚ)
  eventId : Option Nat
deriving DecidableEq, Repr

/-- Event row (src/backend/models/event_table.py).  `centroid` models the
`centroid_embedding` JSON string already parsed; `none` is SQL NULL. -/
structure Event where
  eventId : Nat
  title : String
  summary : String
  startTime : Option Int
  lastUpdate : Option Int
  centroid : Option (List ℚ)
  articleCount : Nat
deriving DecidableEq, Repr

/-- The database state seen by the engine: the two tables, plus the
auto-increment counter that assigns the primary key of the next Event row. -/
structure DB where
  articles : List Article
  events : List Event
  nextEventId : Nat
deriving DecidableEq, Repr

/-- Python exceptions that can escape the clustering functions:
`dimMismatch` is the torch shape error raised by `util.cos_sim` on vectors of
different lengths; `eventNotFound` is the AttributeError raised in
`update_event_centroid` when the `.first()` query returns None; `noEmbedding`
is the TypeError raised by `json.loads(None)`. -/
inductive ClusterErr where
  | dimMismatch
  | eventNotFound
  | noEmbedding
deriving DecidableEq, Repr

/-- The statistics dict returned by `cluster_articles`
(keys total_processed / assigned_to_existing / new_events_created). -/
structure ClusteringStats where
  totalProcessed : Nat
  assignedToExisting : Nat
  newEventsCreated : Nat
deriving DecidableEq, Repr

/-- Componentwise sum of a list of vectors, as computed by `np.mean(_, axis=0)`
before the division. -/
def vecSum : List (List ℚ) → List ℚ
  | [] => []
  | v :: vs => vs.foldl (fun acc w => acc.zipWith (· + ·) w) v

/-- Componentwise arithmetic mean: `np.mean(embeddings, axis=0).tolist()` in
update_event_centroid (clustering.py line 69). -/
def vecMean (vs : List (List ℚ)) : List ℚ :=
  (vecSum vs).map (fun x => x / (vs.length : ℚ))

/-- Exact cosine similarity restricted to one-dimensional vectors, where it is
a rational number: `cos([x],[y]) = x*y / (|x|*|y|)`.  This agrees with
`util.cos_sim` on such inputs (for example `cos_sim([1.0],[-1.0]) = -1.0`
exactly) and is used to instantiate the abstract `sim` parameter in concrete
evaluations.  On other shapes it is irrelevant and returns 0. -/
def cosSim1 : List ℚ → List ℚ → ℚ
  | [x], [y] => (x * y) / (|x| * |y|)
  | _, _ => 0

/-- The for-loop of `find_best_matching_event` (clustering.py lines 29-38),
carrying the running `best_match` / `best_match_score` pair.  Events whose
`centroid_embedding` is NULL are skipped; for the others `util.cos_sim` is
called, which first raises the torch shape error if the lengths differ, and
the running best is replaced only when the score strictly exceeds both the
threshold and the current best. -/
def findLoop (sim : List ℚ → List ℚ → ℚ) (emb : List ℚ) (t : ℚ) :
    List Event → Option Nat → ℚ → Except ClusterErr (Option Nat × ℚ)
  | [], best, bestScore => .ok (best, bestScore)
  | e :: rest, best, bestScore =>
    match e.centroid with
    | none => findLoop sim emb t rest best bestScore
    | some c =>
      if c.length = emb.length then
        if sim emb c > t ∧ sim emb c > bestScore then
          findLoop sim emb t rest (some e.eventId) (sim emb c)
        else
          findLoop sim emb t rest best bestScore
      else
        .error .dimMismatch

/-- Translation of `find_best_matching_event` (clustering.py lines 10-44): run the loop with
`best_match = None`, `best_match_score = -1`, then return None when no match
was recorded and the `(event_id, score)` pair otherwise. -/
def find_best_matching_event (sim : List ℚ → List ℚ → ℚ) (emb : List ℚ)
    (t : ℚ) (db : DB) : Except ClusterErr (Option (Nat × ℚ)) :=
  match findLoop sim emb t db.events none (-1) with
  | .error e => .error e
  | .ok (none, _) => .ok none
  | .ok (some m, s) => .ok (some (m, s))

/-- The member articles of an event:
`db_session.query(Article).filter(Article.event_id == event_id).all()`
(clustering.py line 56). -/
def membersOf (db : DB) (i : Nat) : List Article :=
  db.articles.filter (fun a => a.eventId = some i)

/-- Mutating the single Event row returned by
`query(Event).filter(Event.event_id == event_id).first()`: the first
list entry whose id matches is replaced, the rest are untouched. -/
def updateFirstEvent (i : Nat) (f : Event → Event) : List Event → List Event
  | [] => []
  | e :: rest =>
    if e.eventId = i then f e :: rest else e :: updateFirstEvent i f rest

/-- Translation of `update_event_centroid` (clustering.py lines 47-83).  It collects the
member articles, keeps the embeddings of those whose `embedding_vector` is
set, and — when that list is empty — prints a warning and RETURNS, mutating
nothing and raising nothing.  Otherwise it writes the mean as the new
centroid, sets `article_count` to the number of member articles (embedded or
not), and sets `start_time` / `last_update` to the min / max `published_at`
among members that have one, leaving them unchanged when none has. -/
def update_event_centroid (i : Nat) (db : DB) : Except ClusterErr DB :=
  let articles := membersOf db i
  let embeddings := articles.filterMap (fun a => a.embedding)
  if embeddings = [] then
    .ok db
  else
    let centroid := vecMean embeddings
    match db.events.find? (fun e => e.eventId == i) with
    | none => .error .eventNotFound
    | some _ =>
      let articleTimes := articles.filterMap (fun a => a.publishedAt)
      .ok { db with
        events := updateFirstEvent i (fun e =>
          { e with
            centroid := some centroid,
            articleCount := articles.length,
            startTime := match articleTimes with
              | [] => e.startTime
              | x :: xs => some (xs.foldl min x),
            lastUpdate := match articleTimes with
              | [] => e.lastUpdate
              | x :: xs => some (xs.foldl max x) }) db.events }

/-- The ORM mutation `article.event_id = i` followed by a commit, for the row
whose primary key is `aid` (clustering.py lines 154-155 and 110). -/
def assignArticle (db : DB) (aid : Nat) (i : Nat) : DB :=
  { db with
    articles := db.articles.map (fun a =>
      if a.articleId = aid then { a with eventId := some i } else a) }

/-- Translation of `create_new_event_from_article` (clustering.py lines 86-115): insert a new
Event row seeded from the article (fresh auto-increment id, `summary=""`,
`article_count=1`, both timestamps from the article, centroid equal to the
article's raw `embedding_vector`), commit, then assign the article to it and
commit again. -/
def create_new_event_from_article (article : Article) (db : DB) : DB :=
  let newEvent : Event :=
    { eventId := db.nextEventId
      title := article.title
      summary := ""
      startTime := article.publishedAt
      lastUpdate := article.publishedAt
      centroid := article.embedding
      articleCount := 1 }
  assignArticle
    { db with events := db.events ++ [newEvent], nextEventId := db.nextEventId + 1 }
    article.articleId newEvent.eventId

/-- The body of the per-article loop of `cluster_articles` (clustering.py
lines 143-163): parse the embedding (`json.loads` raises on NULL), find the
best matching event, and either assign + recompute the centroid (returning
`true` for the `articles_assigned` counter) or create a new event (returning
`false`).  Any exception propagates: there is no try/except in
cluster_articles. -/
def processOne (sim : List ℚ → List ℚ → ℚ) (t : ℚ) (a : Article) (db : DB) :
    Except ClusterErr (DB × Bool) :=
  match a.embedding with
  | none => .error .noEmbedding
  | some emb =>
    match find_best_matching_event sim emb t db with
    | .error e => .error e
    | .ok (some (m, _s)) =>
      match update_event_centroid m (assignArticle db a.articleId m) with
      | .error e => .error e
      | .ok db2 => .ok (db2, true)
    | .ok none => .ok (create_new_event_from_article a db, false)

/-- The for-loop of `cluster_articles` over the snapshot list of articles to
cluster, threading the database state and the two counters
`articles_assigned` / `new_events_created`. -/
def clusterLoop (sim : List ℚ → List ℚ → ℚ) (t : ℚ) :
    List Article → DB → Nat → Nat → Except ClusterErr (DB × Nat × Nat)
  | [], db, n, m => .ok (db, n, m)
  | a :: rest, db, n, m =>
    match processOne sim t a db with
    | .error e => .error e
    | .ok (db1, true) => clusterLoop sim t rest db1 (n + 1) m
    | .ok (db1, false) => clusterLoop sim t rest db1 n (m + 1)

/-- The snapshot query of `cluster_articles` (clustering.py lines 133-136):
articles with `event_id` NULL and `embedding_vector` not NULL. -/
def unclusteredEmbedded (db : DB) : List Article :=
  db.articles.filter (fun a => a.eventId = none ∧ a.embedding ≠ none)

/-- Translation of `cluster_articles` (clustering.py lines 118-179): fetch the snapshot list
once, run the loop, and return the statistics dict; `total_processed` is the
length of the snapshot list.  There is no exception handling: a failure while
processing any article aborts the whole run with no statistics. -/
def cluster_articles (sim : List ℚ → List ℚ → ℚ) (t : ℚ) (db : DB) :
    Except ClusterErr (DB × ClusteringStats) :=
  match clusterLoop sim t (unclusteredEmbedded db) db 0 0 with
  | .error e => .error e
  | .ok (db1, n, m) =>
    .ok (db1, { totalProcessed := (unclusteredEmbedded db).length
                assignedToExisting := n
                newEventsCreated := m })

/-- The sequence of committed database states produced by the matched-article
branch of `cluster_articles` (lines 152-159): the assignment is committed on
its own (line 155) before `update_event_centroid` runs and commits its update
(line 82).  If the recomputation raises, the only committed state is the first
one. -/
def assign_commits (m aid : Nat) (db : DB) : List DB :=
  let db1 := assignArticle db aid m
  match update_event_centroid m db1 with
  | .ok db2 => [db1, db2]
  | .error _ => [db1]

/-! ### Specification-side definitions for the matcher

These follow the words of the spec (§4.3 SimilarityMatcher): the qualifying
events are those with a stored centroid whose similarity strictly exceeds the
threshold, and the result is the qualifying event with the strictly highest
score, ties broken in favour of the event encountered first. -/

/-- Modelled from the spec (§4.3): the `(eventID, score)` pairs of the events
whose stored centroid has similarity strictly above the threshold, in the
supplied event order. -/
def qualifying (sim : List ℚ → List ℚ → ℚ) (emb : List ℚ) (t : ℚ)
    (events : List Event) : List (Nat × ℚ) :=
  events.filterMap (fun e =>
    e.centroid.bind (fun c =>
      if t < sim emb c then some (e.eventId, sim emb c) else none))

/-- Modelled from the spec (§4.3): the first pair attaining the strictly
highest score — a later pair replaces an earlier one only when its score is
strictly greater, so exact ties keep the earlier pair. -/
def firstMax : List (Nat × ℚ) → Option (Nat × ℚ)
  | [] => none
  | p :: ps =>
    match firstMax ps with
    | none => some p
    | some q => if p.2 < q.2 then some q else some p

/-- How a running `(best_match, best_match_score)` state absorbs the result of
scanning a suffix of the event list: the suffix result replaces the state only
when its score strictly beats the state's score. -/
def mergeState (st : Option Nat × ℚ) (r : Option (Nat × ℚ)) : Option Nat × ℚ :=
  match r with
  | none => st
  | some p => if st.2 < p.2 then (some p.1, p.2) else st

/-- Every stored centroid in the event list has the same length as the query
embedding, so `util.cos_sim` never raises its shape error. -/
def dimsOk (emb : List ℚ) (events : List Event) : Bool :=
  events.all (fun e =>
    match e.centroid with
    | none => true
    | some c => c.length = emb.length)

/-- Decidable equality for `Except`, so that concrete runs of the engine can
be checked by `decide`. -/
instance instDecEqExcept {ε α : Type} [DecidableEq ε] [DecidableEq α] :
    DecidableEq (Except ε α) := fun x y =>
  match x, y with
  | .error a, .error b =>
    if h : a = b then .isTrue (by rw [h])
    else .isFalse (fun hc => h (Except.error.inj hc))
  | .error _, .ok _ => .isFalse (fun hc => Except.noConfusion hc)
  | .ok _, .error _ => .isFalse (fun hc => Except.noConfusion hc)
  | .ok a, .ok b =>
    if h : a = b then .isTrue (by rw [h])
    else .isFalse (fun hc => h (Except.ok.inj hc))

/-! ### Concrete databases used in per-claim evaluations -/

/-- One event whose centroid is `[-1]`: against the query `[1]` its cosine
similarity is exactly `-1`. -/
def dbC2 : DB :=
  { articles := []
    events := [{ eventId := 1, title := "e1", summary := "", startTime := none,
                 lastUpdate := none, centroid := some [-1], articleCount := 1 }]
    nextEventId := 2 }

/-- One event whose centroid is `[1]`: against the query `[1]` its cosine
similarity is exactly `1`. -/
def dbC2w : DB :=
  { articles := []
    events := [{ eventId := 1, title := "e1", summary := "", startTime := none,
                 lastUpdate := none, centroid := some [1], articleCount := 1 }]
    nextEventId := 2 }

/-- One event whose centroid is `[-2]`: against the query `[1]` its cosine
similarity is exactly `-1`. -/
def dbC3 : DB :=
  { articles := []
    events := [{ eventId := 1, title := "e1", summary := "", startTime := none,
                 lastUpdate := none, centroid := some [-2], articleCount := 1 }]
    nextEventId := 2 }

/-- Two events whose centroids both have cosine similarity exactly `1` to the
query `[1]` — an exact tie at the highest qualifying score. -/
def dbC3w : DB :=
  { articles := []
    events := [{ eventId := 1, title := "e1", summary := "", startTime := none,
                 lastUpdate := none, centroid := some [1], articleCount := 1 },
               { eventId := 2, title := "e2", summary := "", startTime := none,
                 lastUpdate := none, centroid := some [2], articleCount := 1 }]
    nextEventId := 3 }

/-- A first event with NULL centroid followed by one with a stored centroid. -/
def dbC10 : DB :=
  { articles := []
    events := [{ eventId := 1, title := "e1", summary := "", startTime := none,
                 lastUpdate := none, centroid := none, articleCount := 1 },
               { eventId := 2, title := "e2", summary := "", startTime := none,
                 lastUpdate := none, centroid := some [1], articleCount := 1 }]
    nextEventId := 3 }

/-- An event with a stored centroid but no member articles at all. -/
def dbC5 : DB :=
  { articles := []
    events := [{ eventId := 1, title := "e1", summary := "", startTime := none,
                 lastUpdate := none, centroid := some [1], articleCount := 1 }]
    nextEventId := 2 }

/-- One event with one member article (id 1) and one still-unclustered
article (id 2) about to be assigned to it. -/
def dbC7 : DB :=
  { articles := [{ articleId := 1, title := "a1", publishedAt := some 0,
                   embedding := some [1], eventId := some 1 },
                 { articleId := 2, title := "a2", publishedAt := some 1,
                   embedding := some [1], eventId := none }]
    events := [{ eventId := 1, title := "e1", summary := "", startTime := some 0,
                 lastUpdate := some 0, centroid := some [1], articleCount := 1 }]
    nextEventId := 2 }

/-- An unclustered article whose embedding has dimension 3, ahead of a
well-formed dimension-2 article, against an event with a dimension-2
centroid. -/
def artC6a : Article :=
  { articleId := 1, title := "a1", publishedAt := some 0,
    embedding := some [1, 0, 0], eventId := none }

/-- The well-formed dimension-2 article behind `artC6a`. -/
def artC6b : Article :=
  { articleId := 2, title := "a2", publishedAt := some 1,
    embedding := some [1, 0], eventId := none }

/-- Database for the dimension-mismatch run: one dimension-2 centroid, then
the two unclustered articles `artC6a` (dimension 3) and `artC6b`. -/
def dbC6 : DB :=
  { articles := [artC6a, artC6b]
    events := [{ eventId := 1, title := "e1", summary := "", startTime := some 0,
                 lastUpdate := some 0, centroid := some [1, 0], articleCount := 1 }]
    nextEventId := 2 }

/-- A database in which every article is already clustered, so a run has no
work to do. -/
def dbC9w : DB :=
  { articles := [{ articleId := 1, title := "a1", publishedAt := some 0,
                   embedding := some [1], eventId := some 1 }]
    events := [{ eventId := 1, title := "e1", summary := "", startTime := some 0,
                 lastUpdate := some 0, centroid := some [1], articleCount := 1 }]
    nextEventId := 2 }

/-- A single unclustered embedded article. -/
def artC4 : Article :=
  { articleId := 1, title := "a1", publishedAt := some 0,
    embedding := some [1], eventId := none }

/-- Database holding only `artC4` and no events. -/
def dbC4w : DB :=
  { articles := [artC4], events := [], nextEventId := 1 }

/-- An unclustered embedded article used to seed a new event. -/
def artC8 : Article :=
  { articleId := 7, title := "first article", publishedAt := some 5,
    embedding := some [1], eventId := none }

/-- Database holding only `artC8`, no events, next event id 3. -/
def dbC8w : DB :=
  { articles := [artC8], events := [], nextEventId := 3 }

/-! ### Invariants of the engine state (spec §3) -/

/-- The embeddings of an event's member articles (those that have one). -/
def memberEmbeddings (db : DB) (i : Nat) : List (List ℚ) :=
  (membersOf db i).filterMap (fun a => a.embedding)

/-- The centroid/count invariant for a single Event record: its stored
centroid is the componentwise mean of the embeddings of exactly the articles
whose `eventId` equals this event's id, and its stored `articleCount` is the
number of those articles. -/
def EventInv (db : DB) (e : Event) : Prop :=
  e.centroid = some (vecMean (memberEmbeddings db e.eventId)) ∧
  e.articleCount = (membersOf db e.eventId).length

/-- Invariant 2 of spec §3, for every Event in the store. -/
def CentroidInv (db : DB) : Prop := ∀ e ∈ db.events, EventInv db e

/-- Structural well-formedness of the database, as guaranteed by the schema
and the spec's data model: primary keys are unique, the auto-increment
counter is ahead of every issued id (also of every id referenced by an
article), and every clustered article has an embedding (spec §3: only
embedded articles are ever assigned). -/
def Wf (db : DB) : Prop :=
  (db.articles.map (fun a => a.articleId)).Nodup ∧
  (db.events.map (fun e => e.eventId)).Nodup ∧
  (∀ e ∈ db.events, e.eventId < db.nextEventId) ∧
  (∀ a ∈ db.articles, ∀ k, a.eventId = some k → k < db.nextEventId) ∧
  (∀ a ∈ db.articles, a.eventId ≠ none → a.embedding ≠ none)

/-- A snapshot article is pending in an article table: some row carries its
primary key, and every row carrying it is still unclustered and stores the
snapshot's embedding.  This is the relation between an element of the
`articles_to_cluster` snapshot of `cluster_articles` and the current table
while the loop runs. -/
def PendingL (l : List Article) (a : Article) : Prop :=
  (∃ r ∈ l, r.articleId = a.articleId) ∧
  ∀ r ∈ l, r.articleId = a.articleId →
    r.eventId = none ∧ r.embedding = a.embedding

/-- The pending relation `PendingL` on a database's article table. -/
def Pending (db : DB) (a : Article) : Prop := PendingL db.articles a

/-- A single unclustered embedded article in an empty store. -/
def artC1 : Article :=
  { articleId := 1, title := "a1", publishedAt := some 0,
    embedding := some [1], eventId := none }

/-- Initial database for the C1 run: just `artC1`, no events. -/
def dbC1w : DB :=
  { articles := [artC1], events := [], nextEventId := 1 }

/-- The database produced by running the engine once on `dbC1w`: a single
new event seeded from `artC1`, which is now assigned to it. -/
def dbC1w2 : DB :=
  { articles := [{ articleId := 1, title := "a1", publishedAt := some 0,
                   embedding := some [1], eventId := some 1 }]
    events := [{ eventId := 1, title := "a1", summary := "", startTime := some 0,
                 lastUpdate := some 0, centroid := some [1], articleCount := 1 }]
    nextEventId := 2 }

/-! ### Lemmas about the matcher -/

theorem firstMax_eq_none {l : List (Nat × ℚ)} : firstMax l = none ↔ l = [] := by
  cases l with
  | nil => simp [firstMax]
  | cons p ps =>
    cases hq : firstMax ps with
    | none => simp [firstMax, hq]
    | some q => by_cases hlt : p.2 < q.2 <;> simp [firstMax, hq, hlt]

theorem firstMax_mem {l : List (Nat × ℚ)} {p : Nat × ℚ}
    (h : firstMax l = some p) : p ∈ l := by
  induction l with
  | nil => simp [firstMax] at h
  | cons q qs ih =>
    cases hq : firstMax qs with
    | none =>
      simp only [firstMax, hq] at h
      injection h with h2
      rw [← h2]
      exact List.mem_cons_self q qs
    | some r =>
      simp only [firstMax, hq] at h
      by_cases hlt : q.2 < r.2
      · rw [if_pos hlt] at h
        exact List.mem_cons_of_mem _ (ih (hq.trans h))
      · rw [if_neg hlt] at h
        injection h with h2
        rw [← h2]
        exact List.mem_cons_self q qs

theorem mem_qualifying {sim : List ℚ → List ℚ → ℚ} {emb : List ℚ} {t : ℚ}
    {events : List Event} {p : Nat × ℚ} (h : p ∈ qualifying sim emb t events) :
    ∃ e ∈ events, ∃ c, e.centroid = some c ∧ e.eventId = p.1 ∧
      sim emb c = p.2 ∧ t < sim emb c := by
  simp only [qualifying, List.mem_filterMap] at h
  obtain ⟨e, he, hfe⟩ := h
  cases hc : e.centroid with
  | none => rw [hc] at hfe; exact absurd hfe (by simp)
  | some c =>
    rw [hc] at hfe
    have hfe2 : (if t < sim emb c then some (e.eventId, sim emb c) else none)
        = some p := hfe
    by_cases hlt : t < sim emb c
    · rw [if_pos hlt] at hfe2
      injection hfe2 with h2
      exact ⟨e, he, c, hc, by rw [← h2], by rw [← h2], hlt⟩
    · rw [if_neg hlt] at hfe2
      exact absurd hfe2 (by simp)

theorem qualifying_eq_nil {sim : List ℚ → List ℚ → ℚ} {emb : List ℚ} {t : ℚ}
    {events : List Event} :
    qualifying sim emb t events = [] ↔
      ∀ e ∈ events, ∀ c, e.centroid = some c → sim emb c ≤ t := by
  simp only [qualifying, List.filterMap_eq_nil_iff]
  constructor
  · intro h e he c hc
    have h2 := h e he
    rw [hc] at h2
    have h3 : (if t < sim emb c then some (e.eventId, sim emb c) else none)
        = none := h2
    by_cases hlt : t < sim emb c
    · rw [if_pos hlt] at h3; exact absurd h3 (by simp)
    · exact le_of_not_lt hlt
  · intro h e he
    cases hc : e.centroid with
    | none => rfl
    | some c =>
      show (if t < sim emb c then some (e.eventId, sim emb c) else none) = none
      rw [if_neg (not_lt_of_le (h e he c hc))]

theorem findLoop_eq_firstMax (sim : List ℚ → List ℚ → ℚ) (emb : List ℚ)
    (t : ℚ) :
    ∀ (events : List Event) (best : Option Nat) (bs : ℚ),
      dimsOk emb events = true →
      findLoop sim emb t events best bs =
        .ok (mergeState (best, bs) (firstMax (qualifying sim emb t events))) := by
  intro events
  induction events with
  | nil => intro best bs _; simp [findLoop, qualifying, firstMax, mergeState]
  | cons e rest ih =>
    intro best bs hdim
    simp only [dimsOk, List.all_cons, Bool.and_eq_true] at hdim
    obtain ⟨hd, htl⟩ := hdim
    have htl' : dimsOk emb rest = true := htl
    cases hc : e.centroid with
    | none =>
      have hq : qualifying sim emb t (e :: rest) = qualifying sim emb t rest := by
        simp [qualifying, List.filterMap_cons, hc]
      simp only [findLoop, hc]
      rw [hq]
      exact ih best bs htl'
    | some c =>
      rw [hc] at hd
      have hlen : c.length = emb.length := by
        simpa using hd
      simp only [findLoop, hc]
      rw [if_pos hlen]
      by_cases hgt : sim emb c > t ∧ sim emb c > bs
      · have hq : qualifying sim emb t (e :: rest) =
            (e.eventId, sim emb c) :: qualifying sim emb t rest := by
          simp only [qualifying]
          rw [List.filterMap_cons_some]
          rw [hc]
          show Option.bind (some c) _ = _
          simp only [Option.some_bind]
          rw [if_pos hgt.1]
        rw [if_pos hgt, ih _ _ htl', hq]
        congr 1
        cases hfm : firstMax (qualifying sim emb t rest) with
        | none =>
          simp only [firstMax, hfm, mergeState]
          rw [if_pos hgt.2]
        | some q =>
          simp only [firstMax, hfm]
          by_cases hsq : sim emb c < q.2
          · rw [if_pos hsq]
            simp only [mergeState]
            rw [if_pos hsq, if_pos (lt_trans hgt.2 hsq)]
          · rw [if_neg hsq]
            simp only [mergeState]
            rw [if_neg hsq, if_pos hgt.2]
      · rw [if_neg hgt, ih _ _ htl']
        by_cases hlt : t < sim emb c
        · have hbs : ¬ bs < sim emb c := fun hcon => hgt ⟨hlt, hcon⟩
          have hq : qualifying sim emb t (e :: rest) =
              (e.eventId, sim emb c) :: qualifying sim emb t rest := by
            simp [qualifying, List.filterMap_cons, hc, hlt]
          rw [hq]
          congr 1
          cases hfm : firstMax (qualifying sim emb t rest) with
          | none =>
            simp only [firstMax, hfm, mergeState]
            rw [if_neg hbs]
          | some q =>
            simp only [firstMax, hfm]
            by_cases hsq : sim emb c < q.2
            · rw [if_pos hsq]
            · have hqbs : ¬ bs < q.2 := fun hcon =>
                hbs (lt_of_lt_of_le hcon (le_of_not_lt hsq))
              rw [if_neg hsq]
              simp only [mergeState]
              rw [if_neg hbs, if_neg hqbs]
        · have hq : qualifying sim emb t (e :: rest) = qualifying sim emb t rest := by
            simp [qualifying, List.filterMap_cons, hc, hlt]
          rw [hq]


theorem find_best_eq_firstMax (sim : List ℚ → List ℚ → ℚ) (emb : List ℚ)
    (t : ℚ) (db : DB) (hdim : dimsOk emb db.events = true) (ht : -1 ≤ t) :
    find_best_matching_event sim emb t db =
      .ok (firstMax (qualifying sim emb t db.events)) := by
  unfold find_best_matching_event
  rw [findLoop_eq_firstMax sim emb t db.events none (-1) hdim]
  cases hfm : firstMax (qualifying sim emb t db.events) with
  | none => rfl
  | some p =>
    obtain ⟨e, he, c, hc, hid, hs, hlt⟩ := mem_qualifying (firstMax_mem hfm)
    have hgt : ((none : Option Nat), (-1 : ℚ)).2 < p.2 := by
      show (-1 : ℚ) < p.2
      rw [← hs]
      exact lt_of_le_of_lt ht hlt
    simp only [mergeState]
    rw [if_pos hgt]

theorem findLoop_filter_isSome (sim : List ℚ → List ℚ → ℚ) (emb : List ℚ)
    (t : ℚ) :
    ∀ (events : List Event) (best : Option Nat) (bs : ℚ),
      findLoop sim emb t events best bs =
        findLoop sim emb t (events.filter (fun e => e.centroid.isSome)) best bs := by
  intro events
  induction events with
  | nil => intro best bs; rfl
  | cons e rest ih =>
    intro best bs
    cases hc : e.centroid with
    | none =>
      rw [List.filter_cons_of_neg (by simp [hc])]
      simp only [findLoop, hc]
      exact ih best bs
    | some c =>
      rw [List.filter_cons_of_pos (by simp [hc])]
      simp only [findLoop, hc]
      by_cases hlen : c.length = emb.length
      · rw [if_pos hlen, if_pos hlen]
        by_cases hgt : sim emb c > t ∧ sim emb c > bs
        · rw [if_pos hgt, if_pos hgt]
          exact ih _ _
        · rw [if_neg hgt, if_neg hgt]
          exact ih _ _
      · rw [if_neg hlen, if_neg hlen]

theorem findLoop_some_origin (sim : List ℚ → List ℚ → ℚ) (emb : List ℚ)
    (t : ℚ) :
    ∀ (events : List Event) (best : Option Nat) (bs : ℚ) (m : Nat) (s : ℚ),
      findLoop sim emb t events best bs = .ok (some m, s) →
      best = some m ∨ ∃ e ∈ events, e.centroid.isSome ∧ e.eventId = m := by
  intro events
  induction events with
  | nil =>
    intro best bs m s h
    simp only [findLoop] at h
    injection h with h2
    exact Or.inl (congrArg Prod.fst h2)
  | cons e rest ih =>
    intro best bs m s h
    cases hc : e.centroid with
    | none =>
      simp only [findLoop, hc] at h
      rcases ih best bs m s h with h1 | ⟨e2, he2, hs2, hid2⟩
      · exact Or.inl h1
      · exact Or.inr ⟨e2, List.mem_cons_of_mem _ he2, hs2, hid2⟩
    | some c =>
      simp only [findLoop, hc] at h
      by_cases hlen : c.length = emb.length
      · rw [if_pos hlen] at h
        by_cases hgt : sim emb c > t ∧ sim emb c > bs
        · rw [if_pos hgt] at h
          rcases ih _ _ m s h with h1 | ⟨e2, he2, hs2, hid2⟩
          · refine Or.inr ⟨e, List.mem_cons_self e rest, by simp [hc], ?_⟩
            exact Option.some.inj h1
          · exact Or.inr ⟨e2, List.mem_cons_of_mem _ he2, hs2, hid2⟩
        · rw [if_neg hgt] at h
          rcases ih best bs m s h with h1 | ⟨e2, he2, hs2, hid2⟩
          · exact Or.inl h1
          · exact Or.inr ⟨e2, List.mem_cons_of_mem _ he2, hs2, hid2⟩
      · rw [if_neg hlen] at h
        exact Except.noConfusion h

/-! ### Claims C2, C3, C10 -/

/-- C2 (amended).  First conjunct, unconditional in the threshold:
`find_best_matching_event` returns no match whenever no event's similarity to
the query strictly exceeds the threshold — the threshold is exclusive
(`score > threshold`, not `≥`), so a best similarity exactly equal to the
threshold yields no match.  Second conjunct, the converse direction, with
exactly the restriction forced by the counterexample `C2_counterexample`:
provided the threshold is at least `-1` (the loop's initial
`best_match_score` sentinel), any event whose score strictly exceeds the
threshold guarantees a match, whose score is itself strictly above the
threshold.  Below `-1` a score of exactly `-1` still yields no match. -/
theorem C2_threshold_strictness (sim : List ℚ → List ℚ → ℚ) (emb : List ℚ)
    (t : ℚ) (db : DB) (hdim : dimsOk emb db.events = true) :
    ((∀ e ∈ db.events, ∀ c, e.centroid = some c → sim emb c ≤ t) →
      find_best_matching_event sim emb t db = .ok none) ∧
    (-1 ≤ t →
      (∃ e ∈ db.events, ∃ c, e.centroid = some c ∧ t < sim emb c) →
      ∃ m s, find_best_matching_event sim emb t db = .ok (some (m, s)) ∧ t < s) := by
  constructor
  · intro h
    unfold find_best_matching_event
    rw [findLoop_eq_firstMax sim emb t db.events none (-1) hdim]
    rw [qualifying_eq_nil.mpr h]
    rfl
  · intro ht hex
    rw [find_best_eq_firstMax sim emb t db hdim ht]
    obtain ⟨e, he, c, hc, hlt⟩ := hex
    have hqne : qualifying sim emb t db.events ≠ [] := by
      intro hnil
      exact absurd (qualifying_eq_nil.mp hnil e he c hc) (not_le_of_lt hlt)
    cases hfm : firstMax (qualifying sim emb t db.events) with
    | none => exact absurd (firstMax_eq_none.mp hfm) hqne
    | some p =>
      obtain ⟨e2, he2, c2, hc2, hid2, hs2, hlt2⟩ := mem_qualifying (firstMax_mem hfm)
      exact ⟨p.1, p.2, rfl, hs2 ▸ hlt2⟩

/-- C2 counterexample.  The claim says any score strictly above the threshold
yields a match, for every event set and embedding.  With threshold `-2` and a
single event whose centroid `[-1]` has cosine similarity exactly `-1` to the
query `[1]` (so the score strictly exceeds the threshold), the function
nevertheless returns no match: the loop's `best_match_score` starts at `-1`
and a score of `-1` is not strictly greater than it. -/
theorem C2_counterexample :
    cosSim1 [1] [-1] > (-2 : ℚ) ∧
    find_best_matching_event cosSim1 [1] (-2) dbC2 = .ok none := by
  constructor
  · norm_num [cosSim1]
  · norm_num [find_best_matching_event, findLoop, dbC2, cosSim1]

/-- C2 witness: both amended directions evaluated at the default threshold
`3/4` with the query `[1]` — on `dbC2` (sole centroid `[-1]`, similarity `-1`,
below the threshold) no match is returned, and on `dbC2w` (sole centroid
`[1]`, similarity `1`, above the threshold) a match above the threshold is
returned. -/
theorem C2_witness :
    find_best_matching_event cosSim1 [1] (3/4) dbC2 = .ok none ∧
    ∃ m s, find_best_matching_event cosSim1 [1] (3/4) dbC2w = .ok (some (m, s)) ∧
      (3/4 : ℚ) < s :=
  ⟨(C2_threshold_strictness cosSim1 [1] (3/4) dbC2 (by decide)).1
    (by
      intro e he c hc
      have he2 : e ∈ [({ eventId := 1, title := "e1", summary := "", startTime := none, lastUpdate := none, centroid := some [-1], articleCount := 1 } : Event)] := he
      rw [List.mem_singleton.mp he2] at hc
      have hc2 : c = [-1] := (Option.some.inj hc).symm
      rw [hc2]
      norm_num [cosSim1]),
   (C2_threshold_strictness cosSim1 [1] (3/4) dbC2w (by decide)).2 (by norm_num)
    ⟨({ eventId := 1, title := "e1", summary := "", startTime := none, lastUpdate := none, centroid := some [1], articleCount := 1 } : Event),
     by simp [dbC2w], [1], rfl, by norm_num [cosSim1]⟩⟩

/-- C3 (amended).  For thresholds of at least `-1` (the loop sentinel; the
counterexample `C3_counterexample` forces this restriction) and events whose
stored centroids match the query's dimension, `find_best_matching_event`
returns exactly the specification-side answer: the qualifying event (score
strictly above the threshold) with the strictly highest score, where an exact
tie at the highest score is resolved in favour of the event encountered first
in the supplied event order (`firstMax` replaces the running answer only on a
strictly greater score). -/
theorem C3_first_highest_match (sim : List ℚ → List ℚ → ℚ) (emb : List ℚ)
    (t : ℚ) (db : DB) (hdim : dimsOk emb db.events = true) (ht : -1 ≤ t) :
    find_best_matching_event sim emb t db =
      .ok (firstMax (qualifying sim emb t db.events)) :=
  find_best_eq_firstMax sim emb t db hdim ht

/-- C3 counterexample.  With threshold `-3/2` and one event whose centroid
`[-2]` has cosine similarity exactly `-1` to the query `[1]`, the unique
qualifying event (score `-1 > -3/2`) — hence the event with the strictly
highest score above the threshold — is NOT returned: the code yields no
match, because the score does not strictly exceed the initial sentinel `-1`. -/
theorem C3_counterexample :
    firstMax (qualifying cosSim1 [1] (-3/2) dbC3.events) = some (1, -1) ∧
    find_best_matching_event cosSim1 [1] (-3/2) dbC3 = .ok none := by
  constructor
  · norm_num [firstMax, qualifying, List.filterMap_cons, dbC3, cosSim1]
  · norm_num [find_best_matching_event, findLoop, dbC3, cosSim1]

/-- C3 witness: the amended statement evaluated on two events that tie at
similarity exactly `1` to the query `[1]`; the first event (id 1) wins. -/
theorem C3_witness :
    (find_best_matching_event cosSim1 [1] (3/4) dbC3w =
      .ok (firstMax (qualifying cosSim1 [1] (3/4) dbC3w.events))) ∧
    firstMax (qualifying cosSim1 [1] (3/4) dbC3w.events) = some (1, 1) :=
  ⟨C3_first_highest_match cosSim1 [1] (3/4) dbC3w (by decide) (by norm_num),
   by norm_num [firstMax, qualifying, List.filterMap_cons, dbC3w, cosSim1]⟩

/-- C10.  Events whose stored centroid is NULL are silently skipped by
`find_best_matching_event`: the result is identical to running the matcher on
the event list with all NULL-centroid events removed (so their similarity is
never computed and they never influence the outcome), and any returned match
comes from an event that has a stored centroid. -/
theorem C10_null_centroid_skipped (sim : List ℚ → List ℚ → ℚ) (emb : List ℚ)
    (t : ℚ) (db : DB) :
    (find_best_matching_event sim emb t db =
      find_best_matching_event sim emb t
        { db with events := db.events.filter (fun e => e.centroid.isSome) }) ∧
    ∀ m s, find_best_matching_event sim emb t db = .ok (some (m, s)) →
      ∃ e ∈ db.events, e.centroid.isSome ∧ e.eventId = m := by
  constructor
  · unfold find_best_matching_event
    rw [← findLoop_filter_isSome]
  · intro m s h
    unfold find_best_matching_event at h
    cases hfl : findLoop sim emb t db.events none (-1) with
    | error er =>
      rw [hfl] at h
      exact Except.noConfusion h
    | ok st =>
      rw [hfl] at h
      obtain ⟨b, sc⟩ := st
      cases b with
      | none =>
        injection h with h1
        exact Option.noConfusion h1
      | some m2 =>
        injection h with h1
        injection h1 with h2
        have hm : m2 = m := congrArg Prod.fst h2
        rcases findLoop_some_origin sim emb t db.events none (-1) m2 sc hfl with
          h3 | ⟨e, he, hsome, hid⟩
        · exact Option.noConfusion h3
        · exact ⟨e, he, hsome, hm ▸ hid⟩

/-- C10 witness: on a database whose first event has a NULL centroid, the
matcher's result equals the result on the filtered event list, and the match
it returns (event 2, score 1) has a stored centroid. -/
theorem C10_witness :
    (find_best_matching_event cosSim1 [1] (1/2) dbC10 =
      find_best_matching_event cosSim1 [1] (1/2)
        { dbC10 with events := dbC10.events.filter (fun e => e.centroid.isSome) }) ∧
    ∃ e ∈ dbC10.events, e.centroid.isSome ∧ e.eventId = 2 :=
  ⟨(C10_null_centroid_skipped cosSim1 [1] (1/2) dbC10).1,
   (C10_null_centroid_skipped cosSim1 [1] (1/2) dbC10).2 2 1
     (by norm_num [find_best_matching_event, findLoop, dbC10, cosSim1])⟩

/-! ### The engine loop: sequencing and error propagation -/

theorem clusterLoop_append (sim : List ℚ → List ℚ → ℚ) (t : ℚ) :
    ∀ (xs ys : List Article) (db : DB) (n m : Nat),
      clusterLoop sim t (xs ++ ys) db n m =
        (clusterLoop sim t xs db n m).bind
          (fun r => clusterLoop sim t ys r.1 r.2.1 r.2.2) := by
  intro xs
  induction xs with
  | nil => intro ys db n m; rfl
  | cons a rest ih =>
    intro ys db n m
    simp only [List.cons_append, clusterLoop]
    cases hp : processOne sim t a db with
    | error e => rfl
    | ok p =>
      obtain ⟨db1, b⟩ := p
      cases b
      · exact ih ys db1 n (m + 1)
      · exact ih ys db1 (n + 1) m

/-- C4.  Within one run the articles are processed strictly one at a time:
running the loop on `xs ++ ys` is running it on `xs` and then, from the
database state produced by `xs`, on `ys` (first conjunct); and the processing
of each single article starts by matching against the events of exactly the
current database state — the one left behind by all previously processed
articles — so every event created or updated earlier in the run is visible to
every later article's matching step (second conjunct, which exposes the
`find_best_matching_event` call on the threaded state `db`). -/
theorem C4_sequential_visibility (sim : List ℚ → List ℚ → ℚ) (t : ℚ)
    (xs ys : List Article) (a : Article) (emb : List ℚ) (db : DB) (n m : Nat)
    (h : a.embedding = some emb) :
    (clusterLoop sim t (xs ++ ys) db n m =
      (clusterLoop sim t xs db n m).bind
        (fun r => clusterLoop sim t ys r.1 r.2.1 r.2.2)) ∧
    (clusterLoop sim t (a :: ys) db n m =
      (find_best_matching_event sim emb t db).bind (fun mr =>
        match mr with
        | some p =>
          (update_event_centroid p.1 (assignArticle db a.articleId p.1)).bind
            (fun db2 => clusterLoop sim t ys db2 (n + 1) m)
        | none =>
          clusterLoop sim t ys (create_new_event_from_article a db) n (m + 1))) := by
  refine ⟨clusterLoop_append sim t xs ys db n m, ?_⟩
  simp only [clusterLoop, processOne, h]
  cases hf : find_best_matching_event sim emb t db with
  | error e => rfl
  | ok mr =>
    cases mr with
    | none => rfl
    | some p =>
      obtain ⟨pid, ps⟩ := p
      cases hu : update_event_centroid pid (assignArticle db a.articleId pid) with
      | error e => simp [hu, Except.bind]
      | ok db2 => simp [hu, Except.bind]

/-- C4 witness: both conjuncts evaluated on the one-article database
`dbC4w`. -/
theorem C4_witness :
    (clusterLoop cosSim1 (3/4) ([] ++ []) dbC4w 0 0 =
      (clusterLoop cosSim1 (3/4) [] dbC4w 0 0).bind
        (fun r => clusterLoop cosSim1 (3/4) [] r.1 r.2.1 r.2.2)) ∧
    (clusterLoop cosSim1 (3/4) (artC4 :: []) dbC4w 0 0 =
      (find_best_matching_event cosSim1 [1] (3/4) dbC4w).bind (fun mr =>
        match mr with
        | some p =>
          (update_event_centroid p.1 (assignArticle dbC4w artC4.articleId p.1)).bind
            (fun db2 => clusterLoop cosSim1 (3/4) [] db2 (0 + 1) 0)
        | none =>
          clusterLoop cosSim1 (3/4) []
            (create_new_event_from_article artC4 dbC4w) 0 (0 + 1))) :=
  C4_sequential_visibility cosSim1 (3/4) [] [] artC4 [1] dbC4w 0 0 (by decide)

/-- C5 (amended).  When an event's member list yields no embeddings — in
particular when it has no members at all — `update_event_centroid` does NOT
fail: it prints a warning and returns normally, leaving the database
untouched.  The caller cannot observe any error; the recomputation is
silently skipped.  (The code has no `NoMembers` error at all.) -/
theorem C5_empty_members_silent (i : Nat) (db : DB)
    (h : (membersOf db i).filterMap (fun a => a.embedding) = []) :
    update_event_centroid i db = .ok db := by
  simp only [update_event_centroid]
  rw [if_pos h]

/-- C5 counterexample.  `dbC5` holds an event (id 1) with no member articles:
the claim demands a loudly surfaced `NoMembers` failure, but the call returns
successfully with the database unchanged. -/
theorem C5_counterexample :
    update_event_centroid 1 dbC5 = .ok dbC5 ∧
    membersOf dbC5 1 = [] ∧ dbC5.events.length = 1 := by
  refine ⟨?_, ?_, ?_⟩ <;> decide

/-- C5 witness: the amended statement applied to the memberless event of
`dbC5`. -/
theorem C5_witness : update_event_centroid 1 dbC5 = .ok dbC5 :=
  C5_empty_members_silent 1 dbC5 (by decide)

/-- C6 (amended).  `cluster_articles` has no per-article exception handling:
if processing any article of the run fails (for example with the torch
dimension-mismatch error), the exception propagates out of `cluster_articles`
and the whole run aborts — the remaining articles are not processed and no
statistics (and hence no error list) are returned. -/
theorem C6_failure_aborts_run (sim : List ℚ → List ℚ → ℚ) (t : ℚ) (db : DB)
    (xs ys : List Article) (a : Article) (r : DB × Nat × Nat) (err : ClusterErr)
    (hsplit : unclusteredEmbedded db = xs ++ a :: ys)
    (hxs : clusterLoop sim t xs db 0 0 = .ok r)
    (ha : processOne sim t a r.1 = .error err) :
    cluster_articles sim t db = .error err := by
  unfold cluster_articles
  rw [hsplit, clusterLoop_append, hxs]
  simp only [Except.bind, clusterLoop, ha]

/-- C6 counterexample.  In `dbC6` the first unclustered article has a
dimension-3 embedding against a dimension-2 centroid.  The claim says the
failure is caught, the run continues with the second article, and statistics
plus a non-empty error list are returned; instead the whole run aborts with
the exception and returns nothing — the statistics dict has no error list
field at all. -/
theorem C6_counterexample :
    cluster_articles cosSim1 (3/4) dbC6 = .error .dimMismatch ∧
    (unclusteredEmbedded dbC6).length = 2 := by
  refine ⟨?_, ?_⟩ <;> decide

/-- C6 witness: the amended statement instantiated on `dbC6`, whose first
pending article fails with the dimension-mismatch error. -/
theorem C6_witness : cluster_articles cosSim1 (3/4) dbC6 = .error .dimMismatch :=
  C6_failure_aborts_run cosSim1 (3/4) dbC6 [] [artC6b] artC6a (dbC6, 0, 0)
    .dimMismatch (by decide) rfl (by decide)

/-- C7 (amended).  The matched-article write sequence is NOT atomic: the
assignment is committed on its own before centroid recomputation begins — the
first committed state always carries the new assignment while every event
record, including the matched event's centroid and count, is still unchanged.
There is no rollback mechanism, so a recomputation failure would leave this
partial assignment in the stored state. -/
theorem C7_commit_order (db : DB) (aid m : Nat) :
    (assign_commits m aid db).head? = some (assignArticle db aid m) ∧
    (assignArticle db aid m).events = db.events := by
  constructor
  · simp only [assign_commits]
    cases update_event_centroid m (assignArticle db aid m) <;> rfl
  · rfl

/-- C7 counterexample.  On `dbC7`, article 2 is assigned to event 1: the first
committed database state already has both articles as members of event 1,
while event 1 still records `articleCount = 1` and the old centroid — a
partial assignment with no centroid update, durable in stored state, which
the claim says can never be observed. -/
theorem C7_counterexample :
    (assign_commits 1 2 dbC7).head? = some (assignArticle dbC7 2 1) ∧
    (membersOf (assignArticle dbC7 2 1) 1).length = 2 ∧
    (assignArticle dbC7 2 1).events.map (fun e => e.articleCount) = [1] ∧
    (assignArticle dbC7 2 1).events = dbC7.events := by
  refine ⟨?_, ?_, ?_, ?_⟩ <;> decide

/-- C8.  When an embedded article has no matching event, the engine creates
exactly one new Event — seeded with the article's title, the article's
embedding as centroid, `articleCount = 1`, and both `startTime` and
`lastUpdate` equal to the article's `publishedAt` — appended to the event
table, and then assigns the article's `eventID` to the new event's id. -/
theorem C8_new_event_creation (sim : List ℚ → List ℚ → ℚ) (t : ℚ)
    (a : Article) (emb : List ℚ) (db : DB)
    (hemb : a.embedding = some emb)
    (hmatch : find_best_matching_event sim emb t db = .ok none) :
    processOne sim t a db = .ok
      ({ articles := db.articles.map (fun r =>
            if r.articleId = a.articleId
            then { r with eventId := some db.nextEventId } else r)
         events := db.events ++
           [{ eventId := db.nextEventId, title := a.title, summary := ""
              startTime := a.publishedAt, lastUpdate := a.publishedAt
              centroid := a.embedding, articleCount := 1 }]
         nextEventId := db.nextEventId + 1 }, false) := by
  simp only [processOne, hemb, hmatch]
  simp [create_new_event_from_article, assignArticle, hemb]

/-- C8 witness: the creation evaluated on `dbC8w`, whose only article `artC8`
(no events exist, so no match) seeds event 3. -/
theorem C8_witness :
    processOne cosSim1 (3/4) artC8 dbC8w = .ok
      ({ articles := dbC8w.articles.map (fun r =>
            if r.articleId = artC8.articleId
            then { r with eventId := some dbC8w.nextEventId } else r)
         events := dbC8w.events ++
           [{ eventId := dbC8w.nextEventId, title := artC8.title, summary := ""
              startTime := artC8.publishedAt, lastUpdate := artC8.publishedAt
              centroid := artC8.embedding, articleCount := 1 }]
         nextEventId := dbC8w.nextEventId + 1 }, false) :=
  C8_new_event_creation cosSim1 (3/4) artC8 [1] dbC8w (by decide) (by decide)

/-- C9.  Running the engine when no article is both unclustered and embedded
returns the statistics `{0, 0, 0}` and returns the database unchanged: the
snapshot query is empty, the loop never executes, and no write is made. -/
theorem C9_noop_run (sim : List ℚ → List ℚ → ℚ) (t : ℚ) (db : DB)
    (h : unclusteredEmbedded db = []) :
    cluster_articles sim t db =
      .ok (db, { totalProcessed := 0, assignedToExisting := 0,
                 newEventsCreated := 0 }) := by
  unfold cluster_articles
  rw [h]
  rfl

/-- C9 witness: a no-op run on `dbC9w`, whose only article is already
clustered. -/
theorem C9_witness :
    cluster_articles cosSim1 (3/4) dbC9w =
      .ok (dbC9w, { totalProcessed := 0, assignedToExisting := 0,
                    newEventsCreated := 0 }) :=
  C9_noop_run cosSim1 (3/4) dbC9w (by decide)

/-! ### Helper lemmas for the state invariant -/

theorem mem_membersOf {db : DB} {i : Nat} {a : Article} :
    a ∈ membersOf db i ↔ a ∈ db.articles ∧ a.eventId = some i := by
  simp [membersOf, List.mem_filter]

theorem membersOf_eq_of_articles_eq {db db' : DB} (h : db'.articles = db.articles)
    (i : Nat) : membersOf db' i = membersOf db i := by
  simp only [membersOf, h]

theorem EventInv_congr {db db' : DB} {e : Event}
    (h : membersOf db' e.eventId = membersOf db e.eventId)
    (hinv : EventInv db e) : EventInv db' e := by
  unfold EventInv memberEmbeddings at *
  rw [h]
  exact hinv

theorem vecMean_singleton (v : List ℚ) : vecMean [v] = v := by
  simp [vecMean, vecSum]

theorem eq_of_mem_of_nodup_ids :
    ∀ (l : List Article), (l.map (fun r => r.articleId)).Nodup →
      ∀ a r, a ∈ l → r ∈ l → r.articleId = a.articleId → r = a := by
  intro l
  induction l with
  | nil => intro _ a r ha; exact absurd ha (List.not_mem_nil a)
  | cons hd tl ih =>
    intro hnd a r ha hr hid
    rw [List.map_cons, List.nodup_cons] at hnd
    obtain ⟨hnotin, hndtl⟩ := hnd
    rcases List.mem_cons.mp ha with ha1 | ha2 <;>
      rcases List.mem_cons.mp hr with hr1 | hr2
    · rw [hr1, ha1]
    · subst ha1
      exact absurd (hid ▸ List.mem_map_of_mem (fun r => r.articleId) hr2) hnotin
    · subst hr1
      exact absurd (hid.symm ▸ List.mem_map_of_mem (fun r => r.articleId) ha2) hnotin
    · exact ih hndtl a r ha2 hr2 hid

theorem filter_articleId_eq_singleton :
    ∀ (l : List Article), (l.map (fun r => r.articleId)).Nodup →
      ∀ r0 ∈ l, l.filter (fun r => r.articleId = r0.articleId) = [r0] := by
  intro l
  induction l with
  | nil => intro _ r0 hr0; exact absurd hr0 (List.not_mem_nil r0)
  | cons hd tl ih =>
    intro hnd r0 hr0
    rw [List.map_cons, List.nodup_cons] at hnd
    obtain ⟨hnotin, hndtl⟩ := hnd
    rcases List.mem_cons.mp hr0 with h1 | h2
    · subst h1
      rw [List.filter_cons_of_pos (by simp)]
      have htl : tl.filter (fun r => r.articleId = r0.articleId) = [] := by
        rw [List.filter_eq_nil_iff]
        intro x hx
        simp only [decide_eq_true_eq]
        intro hxe
        exact hnotin (hxe ▸ List.mem_map_of_mem (fun r => r.articleId) hx)
      rw [htl]
    · have hne : hd.articleId ≠ r0.articleId := by
        intro he
        exact hnotin (he.symm ▸ List.mem_map_of_mem (fun r => r.articleId) h2)
      rw [List.filter_cons_of_neg (by simp [hne])]
      exact ih hndtl r0 h2

theorem assignArticle_events (db : DB) (aid i : Nat) :
    (assignArticle db aid i).events = db.events := rfl

theorem assignArticle_nextEventId (db : DB) (aid i : Nat) :
    (assignArticle db aid i).nextEventId = db.nextEventId := rfl

theorem assignArticle_articleIds (db : DB) (aid i : Nat) :
    (assignArticle db aid i).articles.map (fun a => a.articleId) =
      db.articles.map (fun a => a.articleId) := by
  simp only [assignArticle, List.map_map]
  apply List.map_congr_left
  intro a _
  by_cases hx : a.articleId = aid
  · simp [hx]
  · simp [hx]

theorem filter_map_assign_ne (aid i j : Nat) :
    ∀ (l : List Article), (∀ r ∈ l, r.articleId = aid → r.eventId = none) → j ≠ i →
      ((l.map (fun a => if a.articleId = aid then { a with eventId := some i } else a)).filter
        (fun a => a.eventId = some j)) =
      l.filter (fun a => a.eventId = some j) := by
  intro l
  induction l with
  | nil => intro _ _; rfl
  | cons r rest ih =>
    intro hnone hij
    have ihr := ih (fun x hx => hnone x (List.mem_cons_of_mem _ hx)) hij
    simp only [List.map_cons]
    by_cases hr : r.articleId = aid
    · rw [if_pos hr]
      have hre : r.eventId = none := hnone r (List.mem_cons_self r rest) hr
      rw [List.filter_cons_of_neg (by simp [Ne.symm hij]),
          List.filter_cons_of_neg (by simp [hre])]
      exact ihr
    · rw [if_neg hr]
      by_cases hj : r.eventId = some j
      · rw [List.filter_cons_of_pos (by simp [hj]),
            List.filter_cons_of_pos (by simp [hj]), ihr]
      · rw [List.filter_cons_of_neg (by simp [hj]),
            List.filter_cons_of_neg (by simp [hj])]
        exact ihr

theorem filter_map_assign_self (aid i : Nat) :
    ∀ (l : List Article), (∀ r ∈ l, r.eventId ≠ some i) →
      ((l.map (fun a => if a.articleId = aid then { a with eventId := some i } else a)).filter
        (fun a => a.eventId = some i)) =
      (l.filter (fun a => a.articleId = aid)).map
        (fun a => { a with eventId := some i }) := by
  intro l
  induction l with
  | nil => intro _; rfl
  | cons r rest ih =>
    intro hno
    have ihr := ih (fun x hx => hno x (List.mem_cons_of_mem _ hx))
    simp only [List.map_cons]
    by_cases hr : r.articleId = aid
    · rw [if_pos hr, List.filter_cons_of_pos (by simp),
          List.filter_cons_of_pos (by simp [hr]), List.map_cons, ihr]
    · rw [if_neg hr,
          List.filter_cons_of_neg (by simp [hno r (List.mem_cons_self r rest)]),
          List.filter_cons_of_neg (by simp [hr]), ihr]

theorem mem_membersOf_assign_self {db : DB} {aid i : Nat} {r : Article}
    (hr : r ∈ db.articles) (hid : r.articleId = aid) :
    { r with eventId := some i } ∈ membersOf (assignArticle db aid i) i := by
  rw [mem_membersOf]
  refine ⟨?_, rfl⟩
  show _ ∈ (assignArticle db aid i).articles
  simp only [assignArticle]
  have h1 := List.mem_map_of_mem
    (fun a => if a.articleId = aid then { a with eventId := some i } else a) hr
  have h2 : (if r.articleId = aid then { r with eventId := some i } else r) ∈
      db.articles.map
        (fun a => if a.articleId = aid then { a with eventId := some i } else a) := h1
  rw [if_pos hid] at h2
  exact h2

theorem updateFirstEvent_ids (i : Nat) (f : Event → Event)
    (hf : ∀ e, (f e).eventId = e.eventId) :
    ∀ evs : List Event,
      (updateFirstEvent i f evs).map (fun e => e.eventId) =
        evs.map (fun e => e.eventId) := by
  intro evs
  induction evs with
  | nil => rfl
  | cons hd tl ih =>
    by_cases hh : hd.eventId = i
    · simp only [updateFirstEvent, if_pos hh, List.map_cons, hf]
    · simp only [updateFirstEvent, if_neg hh, List.map_cons, ih]

theorem forall_mem_updateFirstEvent {P : Event → Prop} (i : Nat) (f : Event → Event) :
    ∀ evs : List Event, (evs.map (fun e => e.eventId)).Nodup →
      (∀ e ∈ evs, e.eventId ≠ i → P e) →
      (∀ e ∈ evs, e.eventId = i → P (f e)) →
      ∀ e ∈ updateFirstEvent i f evs, P e := by
  intro evs
  induction evs with
  | nil => intro _ _ _ e he; exact absurd he (List.not_mem_nil e)
  | cons hd tl ih =>
    intro hnd h1 h2 e he
    rw [List.map_cons, List.nodup_cons] at hnd
    obtain ⟨hnotin, hndtl⟩ := hnd
    by_cases hh : hd.eventId = i
    · rw [updateFirstEvent, if_pos hh] at he
      rcases List.mem_cons.mp he with he1 | he2
      · rw [he1]
        exact h2 hd (List.mem_cons_self hd tl) hh
      · refine h1 e (List.mem_cons_of_mem _ he2) ?_
        intro hei
        apply hnotin
        rw [hh]
        exact hei ▸ List.mem_map_of_mem (fun e => e.eventId) he2
    · rw [updateFirstEvent, if_neg hh] at he
      rcases List.mem_cons.mp he with he1 | he2
      · rw [he1]
        exact h1 hd (List.mem_cons_self hd tl) hh
      · exact ih hndtl
          (fun x hx hxne => h1 x (List.mem_cons_of_mem _ hx) hxne)
          (fun x hx hxe => h2 x (List.mem_cons_of_mem _ hx) hxe)
          e he2

theorem forall_lt_of_map_ids_eq {evs evs' : List Event} {N : Nat}
    (hmap : evs'.map (fun e => e.eventId) = evs.map (fun e => e.eventId))
    (h : ∀ e ∈ evs, e.eventId < N) : ∀ e ∈ evs', e.eventId < N := by
  intro e he
  have h1 : e.eventId ∈ evs'.map (fun e => e.eventId) :=
    List.mem_map_of_mem _ he
  rw [hmap] at h1
  obtain ⟨e0, he0, hid⟩ := List.mem_map.mp h1
  rw [← hid]
  exact h e0 he0

theorem artFresh_map_assign {l : List Article} {aid i N : Nat}
    (hi : i < N) (h : ∀ r ∈ l, ∀ k, r.eventId = some k → k < N) :
    ∀ r ∈ l.map (fun a => if a.articleId = aid then { a with eventId := some i } else a),
      ∀ k, r.eventId = some k → k < N := by
  intro r hr k hk
  obtain ⟨r0, hr0, hfr⟩ := List.mem_map.mp hr
  by_cases h0 : r0.articleId = aid
  · rw [if_pos h0] at hfr
    rw [← hfr] at hk
    have hik : i = k := Option.some.inj hk
    rw [← hik]
    exact hi
  · rw [if_neg h0] at hfr
    rw [← hfr] at hk
    exact h r0 hr0 k hk

theorem assignedEmbedded_map_assign {l : List Article} {aid i : Nat}
    (hall : ∀ r ∈ l, r.articleId = aid → r.embedding ≠ none)
    (h : ∀ r ∈ l, r.eventId ≠ none → r.embedding ≠ none) :
    ∀ r ∈ l.map (fun a => if a.articleId = aid then { a with eventId := some i } else a),
      r.eventId ≠ none → r.embedding ≠ none := by
  intro r hr hne
  obtain ⟨r0, hr0, hfr⟩ := List.mem_map.mp hr
  by_cases h0 : r0.articleId = aid
  · rw [← hfr, if_pos h0]
    exact hall r0 hr0 h0
  · rw [if_neg h0] at hfr
    rw [← hfr] at hne ⊢
    exact h r0 hr0 hne

theorem pendingL_map_assign {l : List Article} {aid i : Nat} {a' : Article}
    (hne : a'.articleId ≠ aid) (hp : PendingL l a') :
    PendingL
      (l.map (fun a => if a.articleId = aid then { a with eventId := some i } else a))
      a' := by
  obtain ⟨⟨r0, hr0, hid0⟩, hall⟩ := hp
  constructor
  · refine ⟨r0, ?_, hid0⟩
    have h1 := List.mem_map_of_mem
      (fun a => if a.articleId = aid then { a with eventId := some i } else a) hr0
    have h2 : (if r0.articleId = aid then { r0 with eventId := some i } else r0) ∈
        l.map
          (fun a => if a.articleId = aid then { a with eventId := some i } else a) := h1
    rw [if_neg (by rw [hid0]; exact hne)] at h2
    exact h2
  · intro r hr hid
    obtain ⟨r1, hr1, hfr⟩ := List.mem_map.mp hr
    by_cases h1 : r1.articleId = aid
    · exfalso
      rw [if_pos h1] at hfr
      apply hne
      rw [← hid, ← hfr]
      exact h1
    · rw [if_neg h1] at hfr
      rw [← hfr] at hid ⊢
      exact hall r1 hr1 hid

theorem find_best_some_mem {sim : List ℚ → List ℚ → ℚ} {emb : List ℚ} {t : ℚ}
    {db : DB} {m : Nat} {s : ℚ}
    (h : find_best_matching_event sim emb t db = .ok (some (m, s))) :
    ∃ e ∈ db.events, e.eventId = m := by
  unfold find_best_matching_event at h
  cases hfl : findLoop sim emb t db.events none (-1) with
  | error er =>
    rw [hfl] at h
    exact Except.noConfusion h
  | ok st =>
    rw [hfl] at h
    obtain ⟨b, sc⟩ := st
    cases b with
    | none =>
      injection h with h1
      exact Option.noConfusion h1
    | some m2 =>
      injection h with h1
      injection h1 with h2
      have hm : m2 = m := congrArg Prod.fst h2
      rcases findLoop_some_origin sim emb t db.events none (-1) m2 sc hfl with
        h3 | ⟨e, he, _, hid⟩
      · exact Option.noConfusion h3
      · exact ⟨e, he, hm ▸ hid⟩

theorem update_event_centroid_spec (i : Nat) (db : DB)
    (hne : (membersOf db i).filterMap (fun a => a.embedding) ≠ [])
    (hex : ∃ e ∈ db.events, e.eventId = i) :
    update_event_centroid i db = .ok
      { db with events := updateFirstEvent i (fun e =>
          { e with
            centroid :=
              some (vecMean ((membersOf db i).filterMap (fun a => a.embedding))),
            articleCount := (membersOf db i).length,
            startTime :=
              match (membersOf db i).filterMap (fun a => a.publishedAt) with
              | [] => e.startTime
              | x :: xs => some (xs.foldl min x),
            lastUpdate :=
              match (membersOf db i).filterMap (fun a => a.publishedAt) with
              | [] => e.lastUpdate
              | x :: xs => some (xs.foldl max x) }) db.events } := by
  simp only [update_event_centroid]
  rw [if_neg hne]
  cases hfind : db.events.find? (fun e => e.eventId == i) with
  | none =>
    exfalso
    obtain ⟨e, he, hid⟩ := hex
    have hsome : (db.events.find? (fun e => e.eventId == i)).isSome := by
      rw [List.find?_isSome]
      exact ⟨e, he, by simp [hid]⟩
    rw [hfind] at hsome
    simp at hsome
  | some e0 => rfl

theorem map_assign_ids (l : List Article) (aid i : Nat) :
    (l.map (fun r => if r.articleId = aid then { r with eventId := some i } else r)).map
      (fun r => r.articleId) = l.map (fun r => r.articleId) := by
  rw [List.map_map]
  apply List.map_congr_left
  intro r _
  by_cases hx : r.articleId = aid <;> simp [hx]

theorem create_inv (a : Article) (emb : List ℚ) (db : DB)
    (hwf : Wf db) (hcv : CentroidInv db) (hp : Pending db a)
    (hemb : a.embedding = some emb) :
    Wf (create_new_event_from_article a db) ∧
    CentroidInv (create_new_event_from_article a db) := by
  obtain ⟨hand, hevnd, hevf, hartf, hae⟩ := hwf
  obtain ⟨⟨r0, hr0, hid0⟩, hall⟩ := hp
  have hartfN : ∀ r ∈ db.articles, r.eventId ≠ some db.nextEventId := fun r hr hcon =>
    lt_irrefl db.nextEventId (hartf r hr db.nextEventId hcon)
  have hcreate : create_new_event_from_article a db =
      { articles := db.articles.map (fun r =>
          if r.articleId = a.articleId
          then { r with eventId := some db.nextEventId } else r)
        events := db.events ++
          [{ eventId := db.nextEventId, title := a.title, summary := ""
             startTime := a.publishedAt, lastUpdate := a.publishedAt
             centroid := a.embedding, articleCount := 1 }]
        nextEventId := db.nextEventId + 1 } := rfl
  rw [hcreate]
  have hmem : membersOf
      { articles := db.articles.map (fun r =>
          if r.articleId = a.articleId
          then { r with eventId := some db.nextEventId } else r)
        events := db.events ++
          [{ eventId := db.nextEventId, title := a.title, summary := ""
             startTime := a.publishedAt, lastUpdate := a.publishedAt
             centroid := a.embedding, articleCount := 1 }]
        nextEventId := db.nextEventId + 1 } db.nextEventId =
      [{ r0 with eventId := some db.nextEventId }] := by
    have h1 := filter_map_assign_self a.articleId db.nextEventId db.articles hartfN
    have hs := filter_articleId_eq_singleton db.articles hand r0 hr0
    rw [hid0] at hs
    show (db.articles.map (fun r =>
        if r.articleId = a.articleId
        then { r with eventId := some db.nextEventId } else r)).filter
      (fun r => r.eventId = some db.nextEventId) = _
    rw [h1, hs]
    rfl
  constructor
  · refine ⟨?_, ?_, ?_, ?_, ?_⟩
    · show ((db.articles.map (fun r =>
          if r.articleId = a.articleId
          then { r with eventId := some db.nextEventId } else r)).map
          (fun r => r.articleId)).Nodup
      rw [map_assign_ids]
      exact hand
    · show (((db.events ++
          [{ eventId := db.nextEventId, title := a.title, summary := ""
             startTime := a.publishedAt, lastUpdate := a.publishedAt
             centroid := a.embedding, articleCount := 1 }]) : List Event).map
          (fun e => e.eventId)).Nodup
      rw [List.map_append, List.nodup_append]
      refine ⟨hevnd, List.nodup_singleton _, ?_⟩
      intro x hx hx2
      simp only [List.map_cons, List.map_nil, List.mem_singleton] at hx2
      obtain ⟨e0, he0, hid0e⟩ := List.mem_map.mp hx
      have hlt := hevf e0 he0
      rw [hid0e, hx2] at hlt
      exact lt_irrefl _ hlt
    · intro e he
      have he2 : e ∈ db.events ++
          [{ eventId := db.nextEventId, title := a.title, summary := ""
             startTime := a.publishedAt, lastUpdate := a.publishedAt
             centroid := a.embedding, articleCount := 1 }] := he
      rcases List.mem_append.mp he2 with hin | hnew
      · exact Nat.lt_succ_of_lt (hevf e hin)
      · rw [List.mem_singleton.mp hnew]
        exact Nat.lt_succ_self db.nextEventId
    · exact artFresh_map_assign (Nat.lt_succ_self db.nextEventId)
        (fun r hr k hk => Nat.lt_succ_of_lt (hartf r hr k hk))
    · exact assignedEmbedded_map_assign
        (fun r hr hid => by
          rw [(hall r hr hid).2, hemb]
          simp)
        hae
  · intro e he
    have he2 : e ∈ db.events ++
        [{ eventId := db.nextEventId, title := a.title, summary := ""
           startTime := a.publishedAt, lastUpdate := a.publishedAt
           centroid := a.embedding, articleCount := 1 }] := he
    rcases List.mem_append.mp he2 with hin | hnew
    · refine EventInv_congr ?_ (hcv e hin)
      exact filter_map_assign_ne a.articleId db.nextEventId e.eventId db.articles
        (fun r hr hid => (hall r hr hid).1) (Nat.ne_of_lt (hevf e hin))
    · rw [List.mem_singleton.mp hnew]
      have hme : memberEmbeddings
          { articles := db.articles.map (fun r =>
              if r.articleId = a.articleId
              then { r with eventId := some db.nextEventId } else r)
            events := db.events ++
              [{ eventId := db.nextEventId, title := a.title, summary := ""
                 startTime := a.publishedAt, lastUpdate := a.publishedAt
                 centroid := a.embedding, articleCount := 1 }]
            nextEventId := db.nextEventId + 1 } db.nextEventId = [emb] := by
        unfold memberEmbeddings
        rw [hmem]
        have hre : r0.embedding = some emb := by
          rw [(hall r0 hr0 hid0).2, hemb]
        simp [List.filterMap_cons, hre]
      refine ⟨?_, ?_⟩
      · show a.embedding = some (vecMean (memberEmbeddings _ db.nextEventId))
        rw [hme, vecMean_singleton, hemb]
      · show 1 = (membersOf _ db.nextEventId).length
        rw [hmem]
        rfl

theorem EventInv_updated {dbL db1 : DB} {i : Nat} (harts : dbL.articles = db1.articles)
    (e : Event) (heid : e.eventId = i) (s u : Option Int) :
    EventInv dbL
      { e with
        centroid := some (vecMean ((membersOf db1 i).filterMap (fun a => a.embedding))),
        articleCount := (membersOf db1 i).length,
        startTime := s, lastUpdate := u } := by
  have hm : membersOf dbL i = membersOf db1 i := membersOf_eq_of_articles_eq harts i
  constructor
  · show some (vecMean ((membersOf db1 i).filterMap (fun a => a.embedding))) =
      some (vecMean (memberEmbeddings dbL e.eventId))
    rw [heid]
    unfold memberEmbeddings
    rw [hm]
  · show (membersOf db1 i).length = (membersOf dbL e.eventId).length
    rw [heid, hm]

theorem matched_inv (a : Article) (emb : List ℚ) (db db2 : DB) (mid : Nat)
    (hwf : Wf db) (hcv : CentroidInv db) (hp : Pending db a)
    (hemb : a.embedding = some emb)
    (hmid : ∃ e ∈ db.events, e.eventId = mid)
    (hu : update_event_centroid mid (assignArticle db a.articleId mid) = .ok db2) :
    Wf db2 ∧ CentroidInv db2 ∧
    db2.articles = (assignArticle db a.articleId mid).articles := by
  obtain ⟨hand, hevnd, hevf, hartf, hae⟩ := hwf
  obtain ⟨⟨r0, hr0, hid0⟩, hall⟩ := hp
  have hmidN : mid < db.nextEventId := by
    obtain ⟨e1, he1, hide1⟩ := hmid
    rw [← hide1]
    exact hevf e1 he1
  have hm0 : { r0 with eventId := some mid } ∈
      membersOf (assignArticle db a.articleId mid) mid :=
    mem_membersOf_assign_self hr0 hid0
  have hnonempty : (membersOf (assignArticle db a.articleId mid) mid).filterMap
      (fun r => r.embedding) ≠ [] := by
    intro hnil
    rw [List.filterMap_eq_nil_iff] at hnil
    have h1 := hnil _ hm0
    have h2 : r0.embedding = none := h1
    rw [(hall r0 hr0 hid0).2, hemb] at h2
    exact Option.noConfusion h2
  have hspec := update_event_centroid_spec mid (assignArticle db a.articleId mid)
    hnonempty hmid
  rw [hu] at hspec
  have hdb2 := Except.ok.inj hspec
  subst hdb2
  refine ⟨⟨?_, ?_, ?_, ?_, ?_⟩, ?_, rfl⟩
  · show ((assignArticle db a.articleId mid).articles.map (fun r => r.articleId)).Nodup
    rw [assignArticle_articleIds]
    exact hand
  · show ((updateFirstEvent mid _ (assignArticle db a.articleId mid).events).map
        (fun e => e.eventId)).Nodup
    rw [updateFirstEvent_ids]
    · exact hevnd
    · intro e
      rfl
  · refine forall_lt_of_map_ids_eq ?_ hevf
    refine updateFirstEvent_ids mid _ ?_ (assignArticle db a.articleId mid).events
    intro e
    rfl
  · show ∀ r ∈ (assignArticle db a.articleId mid).articles,
        ∀ k, r.eventId = some k → k < db.nextEventId
    exact artFresh_map_assign hmidN hartf
  · show ∀ r ∈ (assignArticle db a.articleId mid).articles,
        r.eventId ≠ none → r.embedding ≠ none
    exact assignedEmbedded_map_assign
      (fun r hr hid => by rw [(hall r hr hid).2, hemb]; simp) hae
  · intro e he
    refine forall_mem_updateFirstEvent mid _ db.events hevnd ?_ ?_ e he
    · intro e1 he1 hne1
      refine EventInv_congr ?_ (hcv e1 he1)
      exact filter_map_assign_ne a.articleId mid e1.eventId db.articles
        (fun r hr hid => (hall r hr hid).1) hne1
    · intro e1 he1 heid1
      exact EventInv_updated rfl e1 heid1 _ _

theorem processOne_inv (sim : List ℚ → List ℚ → ℚ) (t : ℚ) (a : Article)
    (db db2 : DB) (b : Bool)
    (hwf : Wf db) (hcv : CentroidInv db) (hp : Pending db a)
    (h : processOne sim t a db = .ok (db2, b)) :
    Wf db2 ∧ CentroidInv db2 ∧
    ∃ i, db2.articles =
      db.articles.map (fun r =>
        if r.articleId = a.articleId then { r with eventId := some i } else r) := by
  cases hemb : a.embedding with
  | none =>
    rw [processOne, hemb] at h
    exact Except.noConfusion h
  | some emb =>
    simp only [processOne, hemb] at h
    cases hf : find_best_matching_event sim emb t db with
    | error er =>
      rw [hf] at h
      exact Except.noConfusion h
    | ok mr =>
      rw [hf] at h
      cases mr with
      | none =>
        injection h with h1
        have h2 : create_new_event_from_article a db = db2 := congrArg Prod.fst h1
        subst h2
        exact ⟨(create_inv a emb db hwf hcv hp hemb).1,
               (create_inv a emb db hwf hcv hp hemb).2, db.nextEventId, rfl⟩
      | some p =>
        obtain ⟨mid, sc⟩ := p
        cases hu : update_event_centroid mid (assignArticle db a.articleId mid) with
        | error er =>
          simp only [hu] at h
          exact Except.noConfusion h
        | ok db2' =>
          simp only [hu] at h
          have h2 : db2' = db2 := by
            injection h with h1
            exact congrArg Prod.fst h1
          subst h2
          have hmat := matched_inv a emb db db2' mid hwf hcv hp hemb
            (find_best_some_mem hf) hu
          exact ⟨hmat.1, hmat.2.1, mid, hmat.2.2⟩

theorem clusterLoop_inv (sim : List ℚ → List ℚ → ℚ) (t : ℚ) :
    ∀ (l : List Article) (db : DB) (n m : Nat) (db2 : DB) (n2 m2 : Nat),
      Wf db → CentroidInv db →
      (∀ x ∈ l, Pending db x) →
      (l.map (fun x => x.articleId)).Nodup →
      clusterLoop sim t l db n m = .ok (db2, n2, m2) →
      Wf db2 ∧ CentroidInv db2 := by
  intro l
  induction l with
  | nil =>
    intro db n m db2 n2 m2 hwf hcv _ _ h
    simp only [clusterLoop] at h
    injection h with h1
    have hdb : db = db2 := congrArg Prod.fst h1
    rw [← hdb]
    exact ⟨hwf, hcv⟩
  | cons a rest ih =>
    intro db n m db2 n2 m2 hwf hcv hpend hnd h
    rw [List.map_cons, List.nodup_cons] at hnd
    obtain ⟨hnotin, hndtl⟩ := hnd
    simp only [clusterLoop] at h
    cases hp : processOne sim t a db with
    | error er =>
      rw [hp] at h
      exact Except.noConfusion h
    | ok q =>
      rw [hp] at h
      obtain ⟨db1, bflag⟩ := q
      obtain ⟨hwf1, hcv1, i, harts⟩ := processOne_inv sim t a db db1 bflag hwf hcv
        (hpend a (List.mem_cons_self a rest)) hp
      have hpend1 : ∀ x ∈ rest, Pending db1 x := by
        intro x hx
        have hxne : x.articleId ≠ a.articleId := by
          intro hcontra
          exact hnotin (hcontra ▸ List.mem_map_of_mem (fun x => x.articleId) hx)
        have hpx := hpend x (List.mem_cons_of_mem _ hx)
        unfold Pending
        rw [harts]
        exact pendingL_map_assign hxne hpx
      cases bflag with
      | true => exact ih db1 (n + 1) m db2 n2 m2 hwf1 hcv1 hpend1 hndtl h
      | false => exact ih db1 n (m + 1) db2 n2 m2 hwf1 hcv1 hpend1 hndtl h

/-- C1.  After any completed run of the clustering engine (`cluster_articles`
returning statistics rather than raising), every Event's stored centroid
equals the componentwise arithmetic mean of the embeddings of exactly the
articles whose `eventId` equals that event's id, and its stored
`articleCount` equals the number of those articles (`CentroidInv`), provided
the run started from a structurally well-formed store (`Wf`: unique primary
keys, auto-increment counter ahead of all issued ids, clustered articles
embedded) that already satisfied the invariant.  Well-formedness is also
preserved, so the invariant is inductive over successive runs. -/
theorem C1_centroid_invariant (sim : List ℚ → List ℚ → ℚ) (t : ℚ)
    (db db2 : DB) (stats : ClusteringStats)
    (hwf : Wf db) (hcv : CentroidInv db)
    (h : cluster_articles sim t db = .ok (db2, stats)) :
    Wf db2 ∧ CentroidInv db2 := by
  unfold cluster_articles at h
  cases hl : clusterLoop sim t (unclusteredEmbedded db) db 0 0 with
  | error er =>
    rw [hl] at h
    exact Except.noConfusion h
  | ok q =>
    rw [hl] at h
    obtain ⟨db1, n, m⟩ := q
    injection h with h1
    have hdb : db1 = db2 := congrArg Prod.fst h1
    subst hdb
    refine clusterLoop_inv sim t (unclusteredEmbedded db) db 0 0 db1 n m hwf hcv ?_ ?_ hl
    · intro x hx
      have hx2 := hx
      simp only [unclusteredEmbedded, List.mem_filter, decide_eq_true_eq] at hx2
      obtain ⟨hxmem, hxnone, hxemb⟩ := hx2
      constructor
      · exact ⟨x, hxmem, rfl⟩
      · intro r hr hid
        have hrx : r = x := eq_of_mem_of_nodup_ids db.articles hwf.1 x r hxmem hr hid
        rw [hrx]
        exact ⟨hxnone, rfl⟩
    · have hsub : List.Sublist
          ((unclusteredEmbedded db).map (fun x => x.articleId))
          (db.articles.map (fun x => x.articleId)) :=
        List.Sublist.map _ (List.filter_sublist db.articles)
      exact List.Nodup.sublist hsub hwf.1

/-- C1 witness: one run on the single-article store `dbC1w` produces
`dbC1w2`, and the invariant (plus well-formedness) holds there: the sole
event's centroid `[1]` is the mean of its one member's embedding and its
count is 1. -/
theorem C1_witness : Wf dbC1w2 ∧ CentroidInv dbC1w2 :=
  C1_centroid_invariant cosSim1 (3/4) dbC1w dbC1w2
    { totalProcessed := 1, assignedToExisting := 0, newEventsCreated := 1 }
    (by simp [Wf, dbC1w, artC1])
    (by simp [CentroidInv, dbC1w])
    (by decide)

end Clustering
